import Mathlib

/-!
Shallow embedding of the OvenCtrl admission-control webhook (src/main.rs).

The decision engine is `handle_opening_admission` together with the wrapper
`admission`.  We translate the Rust data model faithfully:

* `url::Url` is modelled by the two accessors the decision code uses:
  `query()` (the raw, still percent-encoded query string, `None` when the URL
  has no query component) and `path_segments()` (the raw path segments,
  `None` for cannot-be-a-base URLs).  Both accessors of the `url` crate
  return *undecoded* text, which this model preserves.
* `HashMap<String, V>` becomes `String → Option V` (a finite map with unique
  keys), `HashSet<String>` becomes a membership function `String → Bool`.
* `anyhow::Result<T>` becomes `Except String T`; `anyhow` error messages are
  kept verbatim except that `{:?}`-interpolation of the whole URL into the
  two path-segment messages is dropped (the model's `Url` has no Debug
  rendering; the messages stay pairwise distinct).
* `serde_urlencoded::from_str::<IngestQuery>` is modelled by
  `decodeIngestQuery`: the query splits on `&` (empty pieces skipped), each
  piece splits at the first `=`, names and values are form-decoded
  (`+` → space, `%XY` → byte, invalid escapes passed through; byte-to-char
  is exact on ASCII), and the derived-serde field loop fills `name`/`key`,
  erroring on a duplicate or missing field and ignoring unknown fields
  (the struct has no `deny_unknown_fields` attribute).
* `OffsetDateTime` is an opaque timestamp, modelled as `Int`; it is never
  inspected by the decision code.
-/

namespace OvenCtrl

/-- `enum OvenDirection` from src/main.rs. -/
inductive OvenDirection where
  | incoming
  | outgoing
deriving DecidableEq, Repr

/-- `enum OvenProtocol` from src/main.rs (informational only). -/
inductive OvenProtocol where
  | webRTC
  | rtmp
  | srt
  | llhls
  | thumbnail
deriving DecidableEq, Repr

/-- `enum OvenStatus` from src/main.rs. -/
inductive OvenStatus where
  | closing
  | opening
deriving DecidableEq, Repr

/-- Model of `url::Url` restricted to the accessors the decision code calls:
`query()` returns the raw percent-encoded query string (`none` when absent),
`path_segments()` returns the raw percent-encoded segments (`none` for a
cannot-be-a-base URL, which models a structurally degenerate URL). -/
structure Url where
  query : Option String
  path_segments : Option (List String)
deriving DecidableEq, Repr

/-- `struct OvenClient` from src/main.rs. -/
structure OvenClient where
  address : String
  port : Nat
  user_agent : String
deriving DecidableEq, Repr

/-- `struct OvenRequest` from src/main.rs. -/
structure OvenRequest where
  direction : OvenDirection
  protocol : OvenProtocol
  status : OvenStatus
  url : Url
  new_url : Option Url
  time : Int
deriving DecidableEq, Repr

/-- `struct OvenAdmission` from src/main.rs. -/
structure OvenAdmission where
  client : OvenClient
  request : OvenRequest
deriving DecidableEq, Repr

/-- `struct OvenOpeningResponse` from src/main.rs. -/
structure OvenOpeningResponse where
  allowed : Bool
  new_url : Option Url
  lifetime : Option Nat
  reason : Option String
deriving DecidableEq, Repr

/-- `enum OvenResponse` from src/main.rs; `Closing` carries the empty
`OvenClosingResponse` struct. -/
inductive OvenResponse where
  | closing
  | opening (rsp : OvenOpeningResponse)
deriving DecidableEq, Repr

/-- `struct OvenCtrlConfig` from src/main.rs.  `streamers` maps a streamer
name to its token, `rooms` a room to its password, `allowed_streams` a
streamer name to the set of rooms it may publish into. -/
structure OvenCtrlConfig where
  external_host : String
  external_tls : Bool
  streamers : String → Option String
  rooms : String → Option String
  allowed_streams : String → Option (String → Bool)

/-- Value of a hexadecimal digit, as used by percent-decoding. -/
def hexVal (c : Char) : Option Nat :=
  if '0' ≤ c ∧ c ≤ '9' then some (c.toNat - '0'.toNat)
  else if 'a' ≤ c ∧ c ≤ 'f' then some (c.toNat - 'a'.toNat + 10)
  else if 'A' ≤ c ∧ c ≤ 'F' then some (c.toNat - 'A'.toNat + 10)
  else none

/-- Form-urlencoded decoding of one token, as `form_urlencoded::parse` does:
`+` becomes a space, a valid `%XY` escape becomes the byte `0xXY`, an invalid
escape is passed through unchanged. -/
def formDecodeChars : List Char → List Char
  | [] => []
  | '+' :: rest => ' ' :: formDecodeChars rest
  | '%' :: a :: b :: rest =>
    match hexVal a, hexVal b with
    | some x, some y => Char.ofNat (16 * x + y) :: formDecodeChars rest
    | _, _ => '%' :: formDecodeChars (a :: b :: rest)
  | c :: rest => c :: formDecodeChars rest

/-- Form-urlencoded decoding of a string token. -/
def formDecode (s : String) : String :=
  String.mk (formDecodeChars s.data)

/-- Split a character list on a separator (`form_urlencoded` iterates
`splitn`-style over the raw bytes; this is the same split over characters). -/
def splitOnChar (sep : Char) : List Char → List (List Char)
  | [] => [[]]
  | c :: rest =>
    if c = sep then [] :: splitOnChar sep rest
    else
      match splitOnChar sep rest with
      | [] => [[c]]
      | piece :: pieces => (c :: piece) :: pieces

/-- Split one `key=value` piece at the first `=`; a piece without `=` yields
an empty value, and later `=` characters stay in the value (Rust's
`splitn(2, '=')`). -/
def splitKV : List Char → List Char × List Char
  | [] => ([], [])
  | c :: rest =>
    if c = '=' then ([], rest)
    else
      let (k, v) := splitKV rest
      (c :: k, v)

/-- `form_urlencoded::parse` on a query string: split on `&`, skip empty
pieces, split each piece at the first `=`, and form-decode both sides. -/
def formPairs (q : String) : List (String × String) :=
  ((splitOnChar '&' q.data).filter (fun p => p ≠ [])).map fun p =>
    let (k, v) := splitKV p
    (String.mk (formDecodeChars k), String.mk (formDecodeChars v))

/-- `struct IngestQuery` declared inside `handle_opening_admission`. -/
structure IngestQuery where
  name : String
  key : String
deriving DecidableEq, Repr

/-- The field loop of serde's derived `Deserialize` for `IngestQuery`: each
pair fills `name` or `key`, a second occurrence of either is a duplicate
field error, unknown fields are ignored (no `deny_unknown_fields`), and a
field still absent at the end is a missing field error. -/
def readFields : List (String × String) → Option String → Option String →
    Except String IngestQuery
  | [], some n, some k => Except.ok ⟨n, k⟩
  | [], none, _ => Except.error "missing field `name`"
  | [], some _, none => Except.error "missing field `key`"
  | (f, v) :: rest, accName, accKey =>
    if f = "name" then
      match accName with
      | some _ => Except.error "duplicate field `name`"
      | none => readFields rest (some v) accKey
    else if f = "key" then
      match accKey with
      | some _ => Except.error "duplicate field `key`"
      | none => readFields rest accName (some v)
    else readFields rest accName accKey

/-- `serde_urlencoded::from_str::<IngestQuery>` on a raw query string. -/
def decodeIngestQuery (q : String) : Except String IngestQuery :=
  readFields (formPairs q) none none

/-- `handle_opening_admission` from src/main.rs: the decision engine for
`status = opening` requests. -/
def handle_opening_admission (state : OvenCtrlConfig) (payload : OvenAdmission) :
    Except String OvenOpeningResponse :=
  match payload.request.direction with
  | OvenDirection.incoming =>
    match payload.request.url.query with
    | none => Except.error "no query parameters present"
    | some q =>
      match decodeIngestQuery q with
      | Except.error e => Except.error e
      | Except.ok query =>
        match state.streamers query.name with
        | none => Except.error ("unknown streamer: " ++ query.name)
        | some expected_key =>
          if expected_key ≠ query.key then
            Except.error ("invalid key for streamer " ++ query.name)
          else
            match payload.request.url.path_segments with
            | none => Except.error "url has no segments"
            | some segments =>
              match segments.get? 1 with
              | none => Except.error "url is laking a second segment"
              | some room =>
                match state.allowed_streams query.name with
                | none =>
                  Except.error ("streamer '" ++ query.name ++
                    "' does not have access to any rooms")
                | some allowed_streams =>
                  if ¬ allowed_streams room then
                    Except.error ("streamer " ++ query.name ++
                      " does not have access to room " ++ room)
                  else
                    Except.ok ⟨true, none, none, none⟩
  | OvenDirection.outgoing => Except.ok ⟨true, none, none, none⟩

/-- `admission` from src/main.rs: closing requests get the empty closing
response, opening requests run the engine and turn any failure into a
denial verdict carrying the diagnostic as `reason`. -/
def admission (state : OvenCtrlConfig) (payload : OvenAdmission) : OvenResponse :=
  match payload.request.status with
  | OvenStatus.closing => OvenResponse.closing
  | OvenStatus.opening =>
    match handle_opening_admission state payload with
    | Except.error err => OvenResponse.opening ⟨false, none, none, some err⟩
    | Except.ok rsp => OvenResponse.opening rsp

/-- The authorization condition of the spec's iff-characterization for
incoming opening requests: (a) the URL has a query string that decodes to a
`name` and a `key`, (b) `name` is in the secret table with the presented key
equal to the stored secret, (c) the path's second segment (index 1) is a
member of the streamer's allowed-streams set. -/
def allowCond (state : OvenCtrlConfig) (u : Url) : Prop :=
  ∃ q iq, u.query = some q ∧ decodeIngestQuery q = Except.ok iq ∧
    state.streamers iq.name = some iq.key ∧
    ∃ segments room grants,
      u.path_segments = some segments ∧ segments.get? 1 = some room ∧
      state.allowed_streams iq.name = some grants ∧ grants room = true

/-- The only `Ok` the engine ever returns is the canonical allow verdict. -/
theorem handle_ok_eq (state : OvenCtrlConfig) (payload : OvenAdmission)
    (rsp : OvenOpeningResponse)
    (h : handle_opening_admission state payload = Except.ok rsp) :
    rsp = ⟨true, none, none, none⟩ := by
  unfold handle_opening_admission at h
  repeat' split at h
  all_goals simp_all

/-- Outgoing requests are allowed unconditionally by the engine. -/
theorem handle_outgoing (state : OvenCtrlConfig) (payload : OvenAdmission)
    (hdir : payload.request.direction = OvenDirection.outgoing) :
    handle_opening_admission state payload = Except.ok ⟨true, none, none, none⟩ := by
  unfold handle_opening_admission
  rw [hdir]

/-- Closing requests take the closing branch of `admission`. -/
theorem admission_closing_eq (state : OvenCtrlConfig) (payload : OvenAdmission)
    (hst : payload.request.status = OvenStatus.closing) :
    admission state payload = OvenResponse.closing := by
  unfold admission
  rw [hst]

/-- For an opening request, `admission` either relays the engine's canonical
allow verdict or wraps the engine's error into a denial verdict. -/
theorem admission_opening_cases (state : OvenCtrlConfig) (payload : OvenAdmission)
    (hst : payload.request.status = OvenStatus.opening) :
    (handle_opening_admission state payload = Except.ok ⟨true, none, none, none⟩ ∧
      admission state payload = OvenResponse.opening ⟨true, none, none, none⟩) ∨
    (∃ e, handle_opening_admission state payload = Except.error e ∧
      admission state payload = OvenResponse.opening ⟨false, none, none, some e⟩) := by
  cases h : handle_opening_admission state payload with
  | ok rsp =>
    have hr := handle_ok_eq state payload rsp h
    subst hr
    exact Or.inl ⟨rfl, by unfold admission; rw [hst, h]⟩
  | error e =>
    exact Or.inr ⟨e, rfl, by unfold admission; rw [hst, h]⟩

/-- The engine returns `Ok` for an incoming request exactly when the
authorization condition holds of the subject URL. -/
theorem handle_ok_iff (state : OvenCtrlConfig) (payload : OvenAdmission)
    (hdir : payload.request.direction = OvenDirection.incoming) :
    handle_opening_admission state payload = Except.ok ⟨true, none, none, none⟩ ↔
      allowCond state payload.request.url := by
  unfold handle_opening_admission
  rw [hdir]
  constructor
  · intro h
    cases hq : payload.request.url.query with
    | none => simp only [hq] at h; exact Except.noConfusion h
    | some q =>
      simp only [hq] at h
      cases hdec : decodeIngestQuery q with
      | error e => simp only [hdec] at h; exact Except.noConfusion h
      | ok iq =>
        simp only [hdec] at h
        cases hstr : state.streamers iq.name with
        | none => simp only [hstr] at h; exact Except.noConfusion h
        | some expected =>
          simp only [hstr] at h
          by_cases hkey : expected ≠ iq.key
          · rw [if_pos hkey] at h; exact absurd h (by simp)
          · rw [if_neg hkey] at h
            push_neg at hkey
            cases hsegs : payload.request.url.path_segments with
            | none => simp only [hsegs] at h; exact Except.noConfusion h
            | some segments =>
              simp only [hsegs] at h
              cases hroom : segments.get? 1 with
              | none => simp only [hroom] at h; exact Except.noConfusion h
              | some room =>
                simp only [hroom] at h
                cases hgr : state.allowed_streams iq.name with
                | none => simp only [hgr] at h; exact Except.noConfusion h
                | some grants =>
                  simp only [hgr] at h
                  by_cases hmem : ¬ grants room
                  · rw [if_pos hmem] at h; exact absurd h (by simp)
                  · exact ⟨q, iq, hq, hdec, by rw [hstr, hkey], segments, room,
                      grants, hsegs, hroom, hgr, by simpa using hmem⟩
  · rintro ⟨q, iq, hq, hdec, hstr, segments, room, grants, hsegs, hroom, hgr, hmem⟩
    simp only [hq, hdec, hstr, hsegs, hroom, hgr, hmem]
    simp

/-- Concrete authorization table of the spec's scenarios: streamer `alice`
with secret `k1` may publish into `roomA` only. -/
def cfgA : OvenCtrlConfig where
  external_host := "stream.example.org"
  external_tls := false
  streamers := fun n => if n = "alice" then some "k1" else none
  rooms := fun _ => none
  allowed_streams := fun n => if n = "alice" then some (fun r => r == "roomA") else none

/-- A concrete client, informational only. -/
def clientA : OvenClient where
  address := "203.0.113.5"
  port := 1935
  user_agent := "OBS"

/-- Scenario A request: incoming opening publish of `roomA` with the right
credentials. -/
def payloadA : OvenAdmission where
  client := clientA
  request :=
    { direction := OvenDirection.incoming
      protocol := OvenProtocol.rtmp
      status := OvenStatus.opening
      url := { query := some "name=alice&key=k1", path_segments := some ["app", "roomA"] }
      new_url := none
      time := 0 }

/-- C1: for every table and every request with status `opening` and direction
`incoming`, the decision is an opening verdict that allows exactly when (a)
the URL query decodes to a `name` and `key`, (b) `name` is in the secret
table with the presented key equal to the stored secret, and (c) the second
path segment is a member of the streamer's allowed-streams set; in every
other case it denies. -/
theorem incoming_opening_allowed_iff (state : OvenCtrlConfig) (payload : OvenAdmission)
    (hst : payload.request.status = OvenStatus.opening)
    (hdir : payload.request.direction = OvenDirection.incoming) :
    ∃ rsp, admission state payload = OvenResponse.opening rsp ∧
      (rsp.allowed = true ↔ allowCond state payload.request.url) := by
  rcases admission_opening_cases state payload hst with ⟨hok, hadm⟩ | ⟨e, herr, hadm⟩
  · refine ⟨_, hadm, ?_⟩
    simp only [true_iff]
    exact (handle_ok_iff state payload hdir).mp hok
  · refine ⟨_, hadm, ?_⟩
    constructor
    · intro h
      exact absurd h (by simp)
    · intro hcond
      have hok := (handle_ok_iff state payload hdir).mpr hcond
      rw [herr] at hok
      exact Except.noConfusion hok

/-- Witness for C1 at Scenario A's table and request. -/
theorem incoming_opening_allowed_iff_witness :
    ∃ rsp, admission cfgA payloadA = OvenResponse.opening rsp ∧
      (rsp.allowed = true ↔ allowCond cfgA payloadA.request.url) :=
  incoming_opening_allowed_iff cfgA payloadA rfl rfl

/-- C2: for every table and every request with status `closing`, the response
is the closing shape, whatever every other field holds — including a
degenerate URL with neither query nor path segments — and no authorization
check is consulted. -/
theorem closing_always_closing_shape (state : OvenCtrlConfig) (payload : OvenAdmission)
    (hst : payload.request.status = OvenStatus.closing) :
    admission state payload = OvenResponse.closing := by
  unfold admission
  rw [hst]

/-- Witness for C2 on a closing request whose URL has no query and no path
segments at all. -/
theorem closing_always_closing_shape_witness :
    admission cfgA
      { client := clientA
        request :=
          { direction := OvenDirection.incoming
            protocol := OvenProtocol.webRTC
            status := OvenStatus.closing
            url := { query := none, path_segments := none }
            new_url := none
            time := 7 } } = OvenResponse.closing :=
  closing_always_closing_shape cfgA _ rfl

/-- C3: for every table and every request with status `opening` and direction
`outgoing`, the decision is the unconditional allow verdict, with no
credential or room check. -/
theorem outgoing_opening_always_allowed (state : OvenCtrlConfig) (payload : OvenAdmission)
    (hst : payload.request.status = OvenStatus.opening)
    (hdir : payload.request.direction = OvenDirection.outgoing) :
    admission state payload = OvenResponse.opening ⟨true, none, none, none⟩ := by
  unfold admission
  rw [hst, handle_outgoing state payload hdir]

/-- Witness for C3 on an outgoing request with a degenerate URL against a
table that grants nothing. -/
theorem outgoing_opening_always_allowed_witness :
    admission
      { external_host := "h", external_tls := true, streamers := fun _ => none,
        rooms := fun _ => none, allowed_streams := fun _ => none }
      { client := clientA
        request :=
          { direction := OvenDirection.outgoing
            protocol := OvenProtocol.llhls
            status := OvenStatus.opening
            url := { query := none, path_segments := none }
            new_url := none
            time := 3 } } = OvenResponse.opening ⟨true, none, none, none⟩ :=
  outgoing_opening_always_allowed _ _ rfl rfl

/-- The claimed check order for incoming opening requests, transcribed from
the spec: query presence, query decoding, streamer present in the secret
table, key equality, second path segment present (the engine explains this
step with one of two messages, depending on whether the URL has segments at
all), room-grant entry present, room membership.  Returns the explanation of
the first failed check, `none` when every check passes. -/
def firstFailureReason (state : OvenCtrlConfig) (u : Url) : Option String :=
  match u.query with
  | none => some "no query parameters present"
  | some q =>
    match decodeIngestQuery q with
    | Except.error e => some e
    | Except.ok query =>
      match state.streamers query.name with
      | none => some ("unknown streamer: " ++ query.name)
      | some expected_key =>
        if expected_key ≠ query.key then
          some ("invalid key for streamer " ++ query.name)
        else
          match u.path_segments with
          | none => some "url has no segments"
          | some segments =>
            match segments.get? 1 with
            | none => some "url is laking a second segment"
            | some room =>
              match state.allowed_streams query.name with
              | none =>
                some ("streamer '" ++ query.name ++ "' does not have access to any rooms")
              | some allowed_streams =>
                if ¬ allowed_streams room then
                  some ("streamer " ++ query.name ++ " does not have access to room " ++ room)
                else none

/-- A request whose key mismatches and whose path also lacks a second
segment (the claim's short-circuit example). -/
def payloadWrongKeyShortPath : OvenAdmission where
  client := clientA
  request :=
    { direction := OvenDirection.incoming
      protocol := OvenProtocol.rtmp
      status := OvenStatus.opening
      url := { query := some "name=alice&key=WRONG", path_segments := some ["app"] }
      new_url := none
      time := 0 }

/-- C4: for every incoming opening request the verdict is exactly the one
obtained by scanning the checks in the claimed order and denying with the
first failure's explanation; in particular a request with both a wrong key
and a missing second path segment is denied with the invalid-key reason. -/
theorem denial_reason_is_first_failure :
    (∀ (state : OvenCtrlConfig) (payload : OvenAdmission),
      payload.request.status = OvenStatus.opening →
      payload.request.direction = OvenDirection.incoming →
      admission state payload =
        match firstFailureReason state payload.request.url with
        | none => OvenResponse.opening ⟨true, none, none, none⟩
        | some e => OvenResponse.opening ⟨false, none, none, some e⟩) ∧
    admission cfgA payloadWrongKeyShortPath =
      OvenResponse.opening ⟨false, none, none, some "invalid key for streamer alice"⟩ := by
  constructor
  · intro state payload hst hdir
    unfold admission firstFailureReason handle_opening_admission
    rw [hst, hdir]
    cases hq : payload.request.url.query with
    | none => simp only [hq]
    | some q =>
      simp only [hq]
      cases hdec : decodeIngestQuery q with
      | error e => simp only [hdec]
      | ok iq =>
        simp only [hdec]
        cases hstr : state.streamers iq.name with
        | none => simp only [hstr]
        | some expected =>
          simp only [hstr]
          by_cases hkey : expected ≠ iq.key
          · simp only [if_pos hkey]
          · simp only [if_neg hkey]
            cases hsegs : payload.request.url.path_segments with
            | none => simp only [hsegs]
            | some segments =>
              simp only [hsegs]
              cases hroom : segments.get? 1 with
              | none => simp only [hroom]
              | some room =>
                simp only [hroom]
                cases hgr : state.allowed_streams iq.name with
                | none => simp only [hgr]
                | some grants =>
                  simp only [hgr]
                  by_cases hmem : ¬ grants room
                  · simp only [if_pos hmem]
                  · simp only [if_neg hmem]
  · decide

/-- Witness for C4 at Scenario A's table and request. -/
theorem denial_reason_is_first_failure_witness :
    admission cfgA payloadA =
      match firstFailureReason cfgA payloadA.request.url with
      | none => OvenResponse.opening ⟨true, none, none, none⟩
      | some e => OvenResponse.opening ⟨false, none, none, some e⟩ :=
  denial_reason_is_first_failure.1 cfgA payloadA rfl rfl

/-- C6: for every opening request the decision is total: it yields an opening
verdict in which `new_url` and `lifetime` are absent, any engine failure is
converted into `allowed = false` with the diagnostic as `reason`, an allow
carries no reason, and a denial always carries some reason. -/
theorem failures_become_denials (state : OvenCtrlConfig) (payload : OvenAdmission)
    (hst : payload.request.status = OvenStatus.opening) :
    (∀ e, handle_opening_admission state payload = Except.error e →
      admission state payload = OvenResponse.opening ⟨false, none, none, some e⟩) ∧
    ∃ rsp, admission state payload = OvenResponse.opening rsp ∧
      rsp.new_url = none ∧ rsp.lifetime = none ∧
      (rsp.allowed = true ↔ rsp.reason = none) ∧
      (rsp.allowed = false ↔ ∃ e, rsp.reason = some e) := by
  constructor
  · intro e he
    unfold admission
    rw [hst, he]
  · rcases admission_opening_cases state payload hst with ⟨_, hadm⟩ | ⟨e, _, hadm⟩
    · exact ⟨_, hadm, rfl, rfl, by simp⟩
    · exact ⟨_, hadm, rfl, rfl, by simp⟩

/-- Witness for C6 at Scenario A's table and request. -/
theorem failures_become_denials_witness :
    (∀ e, handle_opening_admission cfgA payloadA = Except.error e →
      admission cfgA payloadA = OvenResponse.opening ⟨false, none, none, some e⟩) ∧
    ∃ rsp, admission cfgA payloadA = OvenResponse.opening rsp ∧
      rsp.new_url = none ∧ rsp.lifetime = none ∧
      (rsp.allowed = true ↔ rsp.reason = none) ∧
      (rsp.allowed = false ↔ ∃ e, rsp.reason = some e) :=
  failures_become_denials cfgA payloadA rfl

/-- Revoking a streamer: drop it from the secret table, leaving every other
part of the configuration unchanged. -/
def removeStreamer (state : OvenCtrlConfig) (n : String) : OvenCtrlConfig :=
  { state with streamers := fun m => if m = n then none else state.streamers m }

/-- C7: denial is monotonic under credential revocation — if the decision
denies a request, then the decision with any one streamer removed from the
secret table still denies it. -/
theorem denial_monotone_under_revocation (state : OvenCtrlConfig) (n : String)
    (payload : OvenAdmission) (rsp : OvenOpeningResponse)
    (hadm : admission state payload = OvenResponse.opening rsp)
    (hdeny : rsp.allowed = false) :
    ∃ rsp2, admission (removeStreamer state n) payload = OvenResponse.opening rsp2 ∧
      rsp2.allowed = false := by
  cases hst : payload.request.status with
  | closing =>
    rw [admission_closing_eq state payload hst] at hadm
    exact OvenResponse.noConfusion hadm
  | opening =>
    cases hdir : payload.request.direction with
    | outgoing =>
      have hallow : admission state payload = OvenResponse.opening ⟨true, none, none, none⟩ := by
        unfold admission
        rw [hst, handle_outgoing state payload hdir]
      have h2 := hallow.symm.trans hadm
      injection h2 with h3
      rw [← h3] at hdeny
      exact absurd hdeny (by simp)
    | incoming =>
      rcases admission_opening_cases (removeStreamer state n) payload hst with
        ⟨hok, hadm2⟩ | ⟨e, herr2, hadm2⟩
      · have hcond := (handle_ok_iff (removeStreamer state n) payload hdir).mp hok
        have hcond0 : allowCond state payload.request.url := by
          obtain ⟨q, iq, hq, hdec, hstr, segments, room, grants, hsegs, hroom, hgr, hmem⟩ := hcond
          refine ⟨q, iq, hq, hdec, ?_, segments, room, grants, hsegs, hroom, ?_, hmem⟩
          · by_cases hn : iq.name = n
            · rw [removeStreamer] at hstr
              simp [hn] at hstr
            · simpa [removeStreamer, hn] using hstr
          · simpa [removeStreamer] using hgr
        have hok0 := (handle_ok_iff state payload hdir).mpr hcond0
        rcases admission_opening_cases state payload hst with ⟨_, hadm0⟩ | ⟨e0, herr0, _⟩
        · have h2 := hadm0.symm.trans hadm
          injection h2 with h3
          rw [← h3] at hdeny
          exact absurd hdeny (by simp)
        · rw [hok0] at herr0
          exact Except.noConfusion herr0
      · exact ⟨_, hadm2, rfl⟩

/-- Witness for C7: a wrong-key denial stays a denial after revoking
`alice`. -/
theorem denial_monotone_under_revocation_witness :
    ∃ rsp2, admission (removeStreamer cfgA "alice")
        { client := clientA
          request :=
            { direction := OvenDirection.incoming
              protocol := OvenProtocol.rtmp
              status := OvenStatus.opening
              url := { query := some "name=alice&key=WRONG",
                       path_segments := some ["app", "roomA"] }
              new_url := none
              time := 0 } } = OvenResponse.opening rsp2 ∧
      rsp2.allowed = false :=
  denial_monotone_under_revocation cfgA "alice" _
    ⟨false, none, none, some "invalid key for streamer alice"⟩ (by decide) rfl

/-- An incoming opening request for `roomA` whose query carries a third
parameter beyond `name` and `key`. -/
def payloadExtraParam : OvenAdmission where
  client := clientA
  request :=
    { direction := OvenDirection.incoming
      protocol := OvenProtocol.rtmp
      status := OvenStatus.opening
      url := { query := some "name=alice&key=k1&extra=x",
               path_segments := some ["app", "roomA"] }
      new_url := none
      time := 0 }

/-- C5 counterexample: a query with an additional parameter beyond `name` and
`key` is not denied — the derived deserializer ignores unknown fields, so
this request is allowed outright. -/
theorem extra_query_param_not_denied :
    admission cfgA payloadExtraParam = OvenResponse.opening ⟨true, none, none, none⟩ := by
  decide

/-- C5 as amended: a query whose decoding fails — one missing `name` or
`key`, or repeating either — is a denial carrying the decode error as the
reason, while parameters other than `name` and `key` are simply ignored by
the decoder. -/
theorem query_decode_failure_denies :
    (∀ (state : OvenCtrlConfig) (payload : OvenAdmission) (q e : String),
      payload.request.status = OvenStatus.opening →
      payload.request.direction = OvenDirection.incoming →
      payload.request.url.query = some q →
      decodeIngestQuery q = Except.error e →
      admission state payload = OvenResponse.opening ⟨false, none, none, some e⟩) ∧
    (∀ (f v : String) (rest : List (String × String)) (accName accKey : Option String),
      f ≠ "name" → f ≠ "key" →
      readFields ((f, v) :: rest) accName accKey = readFields rest accName accKey) := by
  constructor
  · intro state payload q e hst hdir hq hdec
    have herr : handle_opening_admission state payload = Except.error e := by
      unfold handle_opening_admission
      rw [hdir]
      simp only [hq, hdec]
    unfold admission
    rw [hst, herr]
  · intro f v rest accName accKey hf hk
    simp [readFields, hf, hk]

/-- Witness for amended C5: a duplicated `name` parameter is denied with the
duplicate-field diagnostic, and an unknown parameter is skipped by the field
loop. -/
theorem query_decode_failure_denies_witness :
    admission cfgA
      { client := clientA
        request :=
          { direction := OvenDirection.incoming
            protocol := OvenProtocol.rtmp
            status := OvenStatus.opening
            url := { query := some "name=alice&name=bob&key=k1",
                     path_segments := some ["app", "roomA"] }
            new_url := none
            time := 0 } } =
      OvenResponse.opening ⟨false, none, none, some "duplicate field `name`"⟩ ∧
    readFields [("extra", "x"), ("name", "alice"), ("key", "k1")] none none =
      readFields [("name", "alice"), ("key", "k1")] none none :=
  ⟨query_decode_failure_denies.1 cfgA _ "name=alice&name=bob&key=k1"
      "duplicate field `name`" rfl rfl rfl rfl,
    query_decode_failure_denies.2 "extra" "x" _ none none (by decide) (by decide)⟩

/-- C8: an authenticated incoming opening request whose streamer either has
no entry in the room-grant table or has an entry whose set does not contain
the target room is denied — absence from the table and a non-member (in
particular empty) set are both denials. -/
theorem absent_or_nonmember_grant_denies (state : OvenCtrlConfig) (payload : OvenAdmission)
    (q : String) (iq : IngestQuery) (segments : List String) (room : String)
    (hst : payload.request.status = OvenStatus.opening)
    (hdir : payload.request.direction = OvenDirection.incoming)
    (hq : payload.request.url.query = some q)
    (hdec : decodeIngestQuery q = Except.ok iq)
    (_hstr : state.streamers iq.name = some iq.key)
    (hsegs : payload.request.url.path_segments = some segments)
    (hroom : segments.get? 1 = some room)
    (hgr : state.allowed_streams iq.name = none ∨
      ∃ grants, state.allowed_streams iq.name = some grants ∧ grants room = false) :
    ∃ rsp, admission state payload = OvenResponse.opening rsp ∧ rsp.allowed = false := by
  rcases admission_opening_cases state payload hst with ⟨hok, _⟩ | ⟨e, _, hadm⟩
  · exfalso
    obtain ⟨q2, iq2, hq2, hdec2, hstr2, segs2, room2, grants2, hsegs2, hroom2, hgr2, hmem2⟩ :=
      (handle_ok_iff state payload hdir).mp hok
    rw [hq] at hq2
    injection hq2 with hq3
    subst hq3
    rw [hdec] at hdec2
    injection hdec2 with hdec3
    subst hdec3
    rw [hsegs] at hsegs2
    injection hsegs2 with hsegs3
    subst hsegs3
    rw [hroom] at hroom2
    injection hroom2 with hroom3
    subst hroom3
    rcases hgr with hnone | ⟨grants, hsome, hfalse⟩
    · rw [hnone] at hgr2
      exact Option.noConfusion hgr2
    · rw [hsome] at hgr2
      injection hgr2 with hg3
      subst hg3
      rw [hmem2] at hfalse
      exact Bool.noConfusion hfalse
  · exact ⟨_, hadm, rfl⟩

/-- Witness for C8: alice authenticates but publishes towards `roomB`, which
its grant set does not contain. -/
theorem absent_or_nonmember_grant_denies_witness :
    ∃ rsp, admission cfgA
        { client := clientA
          request :=
            { direction := OvenDirection.incoming
              protocol := OvenProtocol.rtmp
              status := OvenStatus.opening
              url := { query := some "name=alice&key=k1",
                       path_segments := some ["app", "roomB"] }
              new_url := none
              time := 0 } } = OvenResponse.opening rsp ∧ rsp.allowed = false :=
  absent_or_nonmember_grant_denies cfgA _ "name=alice&key=k1" ⟨"alice", "k1"⟩
    ["app", "roomB"] "roomB" rfl rfl rfl rfl rfl rfl rfl
    (Or.inr ⟨fun r => r == "roomA", rfl, by decide⟩)

/-- C9: the decision is blind to the informational fields — two requests that
agree on direction, status, and subject URL produce identical verdicts for
every table, whatever their protocol, replacement URL, timestamp, and client
data. -/
theorem informational_fields_noninterference (state : OvenCtrlConfig)
    (p1 p2 : OvenAdmission)
    (hdir : p1.request.direction = p2.request.direction)
    (hst : p1.request.status = p2.request.status)
    (hurl : p1.request.url = p2.request.url) :
    admission state p1 = admission state p2 := by
  obtain ⟨c1, ⟨d1, pr1, s1, u1, n1, t1⟩⟩ := p1
  obtain ⟨c2, ⟨d2, pr2, s2, u2, n2, t2⟩⟩ := p2
  dsimp only at hdir hst hurl
  subst hdir
  subst hst
  subst hurl
  cases s1 <;> cases d1 <;> rfl

/-- Witness for C9: two Scenario-A requests differing in protocol, client,
replacement URL, and timestamp get the same verdict. -/
theorem informational_fields_noninterference_witness :
    admission cfgA payloadA =
      admission cfgA
        { client := { address := "198.51.100.9", port := 443, user_agent := "vlc" }
          request :=
            { direction := OvenDirection.incoming
              protocol := OvenProtocol.webRTC
              status := OvenStatus.opening
              url := { query := some "name=alice&key=k1",
                       path_segments := some ["app", "roomA"] }
              new_url := some { query := none, path_segments := some ["elsewhere"] }
              time := 99 } } :=
  informational_fields_noninterference cfgA payloadA _ rfl rfl rfl

/-- Grant table listing the percent-decoded room name `room A` for alice. -/
def cfgDecodedGrant : OvenCtrlConfig where
  external_host := "stream.example.org"
  external_tls := false
  streamers := fun n => if n = "alice" then some "k1" else none
  rooms := fun _ => none
  allowed_streams := fun n => if n = "alice" then some (fun r => r == "room A") else none

/-- Grant table listing the percent-encoded room name `room%20A` for alice. -/
def cfgEncodedGrant : OvenCtrlConfig where
  external_host := "stream.example.org"
  external_tls := false
  streamers := fun n => if n = "alice" then some "k1" else none
  rooms := fun _ => none
  allowed_streams := fun n => if n = "alice" then some (fun r => r == "room%20A") else none

/-- An incoming opening request whose second path segment carries a percent
escape. -/
def payloadEncodedRoom : OvenAdmission where
  client := clientA
  request :=
    { direction := OvenDirection.incoming
      protocol := OvenProtocol.rtmp
      status := OvenStatus.opening
      url := { query := some "name=alice&key=k1",
               path_segments := some ["app", "room%20A"] }
      new_url := none
      time := 0 }

/-- C10: the target room is the raw second path segment, compared without
percent-decoding: an allow forces the grant set to contain the raw segment
itself, a grant set holding only the decoded `room A` rejects the segment
`room%20A`, and a grant set holding the encoded `room%20A` accepts it. -/
theorem room_membership_on_raw_segment :
    (∀ (state : OvenCtrlConfig) (payload : OvenAdmission) (q : String)
        (iq : IngestQuery) (segments : List String) (room : String)
        (rsp : OvenOpeningResponse),
      payload.request.status = OvenStatus.opening →
      payload.request.direction = OvenDirection.incoming →
      payload.request.url.query = some q →
      decodeIngestQuery q = Except.ok iq →
      payload.request.url.path_segments = some segments →
      segments.get? 1 = some room →
      admission state payload = OvenResponse.opening rsp →
      rsp.allowed = true →
      ∃ grants, state.allowed_streams iq.name = some grants ∧ grants room = true) ∧
    admission cfgDecodedGrant payloadEncodedRoom = OvenResponse.opening
      ⟨false, none, none, some "streamer alice does not have access to room room%20A"⟩ ∧
    admission cfgEncodedGrant payloadEncodedRoom =
      OvenResponse.opening ⟨true, none, none, none⟩ := by
  refine ⟨?_, by decide, by decide⟩
  intro state payload q iq segments room rsp hst hdir hq hdec hsegs hroom hadm hallow
  rcases admission_opening_cases state payload hst with ⟨hok, _⟩ | ⟨e, _, hadm2⟩
  · obtain ⟨q2, iq2, hq2, hdec2, hstr2, segs2, room2, grants2, hsegs2, hroom2, hgr2, hmem2⟩ :=
      (handle_ok_iff state payload hdir).mp hok
    rw [hq] at hq2
    injection hq2 with hq3
    subst hq3
    rw [hdec] at hdec2
    injection hdec2 with hdec3
    subst hdec3
    rw [hsegs] at hsegs2
    injection hsegs2 with hsegs3
    subst hsegs3
    rw [hroom] at hroom2
    injection hroom2 with hroom3
    subst hroom3
    exact ⟨grants2, hgr2, hmem2⟩
  · have h2 := hadm2.symm.trans hadm
    injection h2 with h3
    rw [← h3] at hallow
    exact absurd hallow (by simp)

/-- Witness for C10: with the encoded grant table, the allow at the encoded
segment exhibits the raw-segment membership. -/
theorem room_membership_on_raw_segment_witness :
    ∃ grants, cfgEncodedGrant.allowed_streams (IngestQuery.mk "alice" "k1").name =
        some grants ∧ grants "room%20A" = true :=
  room_membership_on_raw_segment.1 cfgEncodedGrant payloadEncodedRoom
    "name=alice&key=k1" ⟨"alice", "k1"⟩ ["app", "room%20A"] "room%20A"
    ⟨true, none, none, none⟩ rfl rfl rfl rfl rfl rfl (by decide) rfl

end OvenCtrl
